import Mathlib

/-! Image rewriting in docker-proxy-webhook.

A shallow embedding of `api/v1/docker_proxy_mutating_webhook.go`.

Go `string` values are Lean `String`s (sequences of Unicode scalar values; two valid
UTF-8 Go strings are equal byte for byte exactly when their rune sequences are equal).
Go `error` values are represented by their message.  A Go `map[string]string` is a
key-unique association list, `nil` maps and `nil` slices are `none`.

Logging and Prometheus counters have no influence on any returned value and are left out.

The source calls three libraries.  Their relevant behaviour is embedded as follows:

* `regexp` and `github.com/distribution/reference` (v0.6.0) together with
  `github.com/opencontainers/go-digest`: embedded below, the regular expressions are
  transcribed term by term from `reference/regexp.go`;
* `yaml.Unmarshal`, `admission.Decoder.Decode`, `json.Marshal`: taken as parameters.
-/

namespace DockerProxy

/-! ## `strings` -/

namespace strings

/-- Go `strings.ToLower`, on the ASCII range.  Every string for which the result is used
by the program (a parsed domain) is ASCII; on other inputs the callers in `reference`
reach a parse error whichever way the comparison goes. -/
def ToLower (s : String) : String := ⟨s.data.map Char.toLower⟩

/-- Go `strings.ContainsRune`. -/
def ContainsRune (s : String) (r : Char) : Bool := s.data.any (fun c => c == r)

/-- Go `strings.ContainsAny`. -/
def ContainsAny (s chars : String) : Bool :=
  s.data.any (fun c => chars.data.any (fun d => c == d))

/-- The part of `s` before the first `sep` (all of `s` when there is none). -/
def before (sep : Char) : List Char → List Char
  | [] => []
  | c :: t => if c == sep then [] else c :: before sep t

/-- The part of `s` after the first `sep`, `none` when `sep` does not occur. -/
def after (sep : Char) : List Char → Option (List Char)
  | [] => none
  | c :: t => if c == sep then some t else after sep t

/-- Go `strings.Cut(s, sep)` for a one-character separator. -/
def Cut (s : String) (sep : Char) : String × String × Bool :=
  match after sep s.data with
  | some rest => (⟨before sep s.data⟩, ⟨rest⟩, true)
  | none => (s, "", false)

end strings

/-! ## `regexp`: a backtracking matcher with leftmost-first (Go, Perl) preference -/

/-- Regular expressions, as far as the patterns of the program use them. -/
inductive Regex where
  | eps : Regex
  | cls (p : Char → Bool) : Regex
  | cat (a b : Regex) : Regex
  | alt (a b : Regex) : Regex
  | star (a : Regex) : Regex
  | group (i : Nat) (a : Regex) : Regex

/-- The submatches found so far, indexed by group number. -/
abbrev Caps := List String

/-- Greedy iteration of `step`, at most `n` times, each round consuming input. -/
def starLoop (step : List Char → Caps → (List Char → Caps → Option Caps) → Option Caps) :
    Nat → List Char → Caps → (List Char → Caps → Option Caps) → Option Caps
  | 0, s, c, k => k s c
  | n + 1, s, c, k =>
    match step s c (fun s1 c1 => if s1.length < s.length then starLoop step n s1 c1 k
                                 else none) with
    | some r => some r
    | none => k s c

namespace Regex

/-- Match a prefix of `s`, then hand the rest of the input to the continuation `k`;
alternatives are tried in order, so the first overall match is the one Go reports. -/
def run : Regex → List Char → Caps → (List Char → Caps → Option Caps) → Option Caps
  | eps, s, c, k => k s c
  | cls p, s, c, k =>
    match s with
    | [] => none
    | x :: t => if p x then k t c else none
  | cat a b, s, c, k => a.run s c (fun s1 c1 => b.run s1 c1 k)
  | alt a b, s, c, k =>
    match a.run s c k with
    | some r => some r
    | none => b.run s c k
  | star a, s, c, k => starLoop a.run s.length s c k
  | group i a, s, c, k =>
    a.run s c (fun s1 c1 => k s1 (c1.set i ⟨s.take (s.length - s1.length)⟩))

/-- A literal character. -/
def chr (x : Char) : Regex := cls (fun c => c == x)

/-- Pattern `a?`. -/
def optional (a : Regex) : Regex := alt a eps

/-- Pattern `a*`. -/
def anyTimes (a : Regex) : Regex := star a

/-- Pattern `a+`. -/
def oneOrMore (a : Regex) : Regex := cat a (star a)

/-- Pattern `a{n}`. -/
def times : Nat → Regex → Regex
  | 0, _ => eps
  | n + 1, a => cat a (times n a)

/-- Pattern `a{0,n}`. -/
def upTo : Nat → Regex → Regex
  | 0, _ => eps
  | n + 1, a => optional (cat a (upTo n a))

/-- Pattern `a{n,}`. -/
def atLeast (n : Nat) (a : Regex) : Regex := cat (times n a) (star a)

/-- Go `FindStringSubmatch` for a pattern anchored as `^re$` with groups `1..n`:
entry 0 is the whole match, a group that took no part is the empty string. -/
def FindStringSubmatch (re : Regex) (n : Nat) (s : String) : Option (List String) :=
  re.run s.data (s :: List.replicate n "") (fun rest c => if rest.isEmpty then some c else none)

/-- Go `MatchString` for a pattern anchored as `^re$`. -/
def MatchString (re : Regex) (s : String) : Bool :=
  (re.run s.data [] (fun rest c => if rest.isEmpty then some c else none)).isSome

end Regex

/-! ## Character classes -/

/-- Class `[a-z]`. -/
def isLowerAZ (c : Char) : Bool := 'a'.toNat ≤ c.toNat && c.toNat ≤ 'z'.toNat

/-- Class `[A-Z]`. -/
def isUpperAZ (c : Char) : Bool := 'A'.toNat ≤ c.toNat && c.toNat ≤ 'Z'.toNat

/-- Class `[0-9]`. -/
def isDigit09 (c : Char) : Bool := '0'.toNat ≤ c.toNat && c.toNat ≤ '9'.toNat

/-- Class `[a-f0-9]`. -/
def isLowerHex (c : Char) : Bool :=
  ('a'.toNat ≤ c.toNat && c.toNat ≤ 'f'.toNat) || isDigit09 c

/-- Class `[[:xdigit:]]`. -/
def isXDigit (c : Char) : Bool :=
  isLowerHex c || ('A'.toNat ≤ c.toNat && c.toNat ≤ 'F'.toNat)

/-- Class `[a-zA-Z0-9]`. -/
def isAlnum (c : Char) : Bool := isLowerAZ c || isUpperAZ c || isDigit09 c

/-- Class `\w`. -/
def isWord (c : Char) : Bool := isAlnum c || c == '_'

/-! ## `github.com/opencontainers/go-digest` -/

namespace digest

/-- Pattern `DigestRegexpAnchored`: `^[a-z0-9]+(?:[.+_-][a-z0-9]+)*:[a-zA-Z0-9=_-]+$`. -/
def DigestRegexpAnchored : Regex :=
  let lower := Regex.oneOrMore (.cls (fun c => isLowerAZ c || isDigit09 c))
  .cat lower (.cat
    (Regex.anyTimes (.cat (.cls (fun c => c == '.' || c == '+' || c == '_' || c == '-')) lower))
    (.cat (Regex.chr ':')
      (Regex.oneOrMore (.cls (fun c => isAlnum c || c == '=' || c == '_' || c == '-')))))

/-- The registered algorithms with `Algorithm.Size`: the digest size in bytes.  The three
hashes are linked into every binary that serves TLS, so `Available` holds for each. -/
def algorithmSize (a : String) : Option Nat :=
  if a == "sha256" then some 32
  else if a == "sha384" then some 48
  else if a == "sha512" then some 64
  else none

/-- Go `Algorithm.Validate`: the encoded part has `2 * Size` characters, all of them
matching `^[a-f0-9]{2*Size}$`. -/
def algorithmValidate (size : Nat) (encoded : String) : Except String Unit :=
  if size * 2 != encoded.length then .error "invalid checksum digest length"
  else if (Regex.times (size * 2) (.cls isLowerHex)).MatchString encoded then .ok ()
  else .error "invalid checksum digest format"

/-- Go `digest.Parse`: the string itself when `Digest.Validate` accepts it. -/
def Parse (s : String) : Except String String :=
  match strings.after ':' s.data with
  | none => .error "invalid checksum digest format"
  | some encoded =>
    let algorithm := strings.before ':' s.data
    if algorithm.isEmpty || encoded.isEmpty then .error "invalid checksum digest format"
    else
      match algorithmSize ⟨algorithm⟩ with
      | none =>
        if !DigestRegexpAnchored.MatchString s then .error "invalid checksum digest format"
        else .error "unsupported digest algorithm"
      | some size =>
        match algorithmValidate size ⟨encoded⟩ with
        | .error e => .error e
        | .ok _ => .ok s

end digest

/-! ## `github.com/distribution/reference` -/

namespace reference

/-- Pattern `[a-z0-9]+`. -/
def alphanumeric : Regex := Regex.oneOrMore (.cls (fun c => isLowerAZ c || isDigit09 c))

/-- Pattern `(?:[._]|__|[-]+)`. -/
def separator : Regex :=
  .alt (.cls (fun c => c == '.' || c == '_'))
    (.alt (.cat (Regex.chr '_') (Regex.chr '_')) (Regex.oneOrMore (Regex.chr '-')))

/-- Pattern `(?:[a-zA-Z0-9]|[a-zA-Z0-9][a-zA-Z0-9-]*[a-zA-Z0-9])`. -/
def domainNameComponent : Regex :=
  .alt (.cls isAlnum)
    (.cat (.cls isAlnum) (.cat (Regex.anyTimes (.cls (fun c => isAlnum c || c == '-')))
      (.cls isAlnum)))

/-- Pattern `\[(?:[a-fA-F0-9:]+)\]`. -/
def ipv6address : Regex :=
  .cat (Regex.chr '[') (.cat (Regex.oneOrMore (.cls (fun c => isXDigit c || c == ':')))
    (Regex.chr ']'))

/-- Pattern `domainNameComponent(?:\.domainNameComponent)*`. -/
def domainName : Regex :=
  .cat domainNameComponent (Regex.anyTimes (.cat (Regex.chr '.') domainNameComponent))

/-- Pattern `(?:domainName|ipv6address)`. -/
def host : Regex := .alt domainName ipv6address

/-- Pattern `(?::[0-9]+)?`. -/
def optionalPort : Regex := Regex.optional (.cat (Regex.chr ':') (Regex.oneOrMore (.cls isDigit09)))

/-- Pattern `host optionalPort`. -/
def domainAndPort : Regex := .cat host optionalPort

/-- Pattern `[\w][\w.-]{0,127}`. -/
def tag : Regex :=
  .cat (.cls isWord) (Regex.upTo 127 (.cls (fun c => isWord c || c == '.' || c == '-')))

/-- Pattern `[A-Za-z][A-Za-z0-9]*(?:[-_+.][A-Za-z][A-Za-z0-9]*)*[:][[:xdigit:]]{32,}`. -/
def digestPat : Regex :=
  let word := Regex.cat (.cls (fun c => isLowerAZ c || isUpperAZ c)) (Regex.anyTimes (.cls isAlnum))
  .cat word (.cat
    (Regex.anyTimes (.cat (.cls (fun c => c == '-' || c == '_' || c == '+' || c == '.')) word))
    (.cat (Regex.chr ':') (Regex.atLeast 32 (.cls isXDigit))))

/-- Pattern `alphanumeric(?:separator alphanumeric)*`. -/
def pathComponent : Regex := .cat alphanumeric (Regex.anyTimes (.cat separator alphanumeric))

/-- Pattern `pathComponent(?:/pathComponent)*`. -/
def remoteName : Regex :=
  .cat pathComponent (Regex.anyTimes (.cat (Regex.chr '/') pathComponent))

/-- Pattern `(?:domainAndPort/)?remoteName`. -/
def namePat : Regex := .cat (Regex.optional (.cat domainAndPort (Regex.chr '/'))) remoteName

/-- Pattern `^(?:(domainAndPort)/)?(remoteName)$`, groups 1 and 2. -/
def anchoredNameRegexp : Regex :=
  .cat (Regex.optional (.cat (.group 1 domainAndPort) (Regex.chr '/'))) (.group 2 remoteName)

/-- Pattern `^(namePat)(?::(tag))?(?:@(digestPat))?$`, groups 1, 2 and 3. -/
def ReferenceRegexp : Regex :=
  .cat (.group 1 namePat) (.cat (Regex.optional (.cat (Regex.chr ':') (.group 2 tag)))
    (Regex.optional (.cat (Regex.chr '@') (.group 3 digestPat))))

/-- Pattern `^([a-f0-9]{64})$`. -/
def anchoredIdentifierRegexp : Regex := .group 1 (Regex.times 64 (.cls isLowerHex))

/-- Constant `RepositoryNameTotalLengthMax`. -/
def RepositoryNameTotalLengthMax : Nat := 255

/-- Constant `legacyDefaultDomain`. -/
def legacyDefaultDomain : String := "index.docker.io"

/-- Constant `defaultDomain`. -/
def defaultDomain : String := "docker.io"

/-- Constant `officialRepoPrefix`. -/
def officialRepoPrefix : String := "library/"

/-- A value of interface `reference.Named`, as `getBestReferenceType` builds it: a
`repository` (no tag, no digest), a `taggedReference`, a `canonicalReference` (digest
only) or a `reference` (both).  The value implements `Tagged` exactly when `tag` is
`some`, and `Digested` exactly when `digest` is `some`. -/
structure Named where
  domain : String
  path : String
  tag : Option String
  digest : Option String
  deriving DecidableEq, Repr

/-- Go `reference.Domain`. -/
def Domain (named : Named) : String := named.domain

/-- Go `reference.Path`. -/
def Path (named : Named) : String := named.path

/-- The errors of `Parse` when `ReferenceRegexp` finds no match. -/
def noMatchError (s : String) : String :=
  if s == "" then "repository name must have at least one component"
  else if (ReferenceRegexp.FindStringSubmatch 3 (strings.ToLower s)).isSome then
    "repository name must be lowercase"
  else "invalid reference format"

/-- Go `reference.Parse`, restricted to the results that are `Named` (the name matched by
`ReferenceRegexp` is never empty, so every result is). -/
def Parse (s : String) : Except String Named :=
  match ReferenceRegexp.FindStringSubmatch 3 s with
  | some [_, name, tagStr, digestStr] =>
    let (domain, path) :=
      match anchoredNameRegexp.FindStringSubmatch 2 name with
      | some [_, d, p] => (d, p)
      | _ => ("", name)
    if path.length > RepositoryNameTotalLengthMax then
      .error "repository name must not be more than 255 characters"
    else
      let tagOpt := if tagStr == "" then none else some tagStr
      if digestStr != "" then
        match digest.Parse digestStr with
        | .error e => .error e
        | .ok d => .ok { domain := domain, path := path, tag := tagOpt, digest := some d }
      else .ok { domain := domain, path := path, tag := tagOpt, digest := none }
  | _ => .error (noMatchError s)

/-- Go `splitDockerDomain`. -/
def splitDockerDomain (name : String) : String × String :=
  match strings.Cut name '/' with
  | (_, _, false) => (defaultDomain, officialRepoPrefix ++ name)
  | (maybeDomain, maybeRemoteName, true) =>
    let (domain, remoteName) :=
      if maybeDomain == "localhost" then (maybeDomain, maybeRemoteName)
      else if maybeDomain == legacyDefaultDomain then (defaultDomain, maybeRemoteName)
      else if strings.ContainsAny maybeDomain ".:" then (maybeDomain, maybeRemoteName)
      else if strings.ToLower maybeDomain != maybeDomain then (maybeDomain, maybeRemoteName)
      else (defaultDomain, name)
    if domain == defaultDomain && !strings.ContainsRune remoteName '/' then
      (domain, officialRepoPrefix ++ remoteName)
    else (domain, remoteName)

/-- Go `reference.ParseNormalizedNamed`. -/
def ParseNormalizedNamed (s : String) : Except String Named :=
  if anchoredIdentifierRegexp.MatchString s then
    .error ("invalid repository name (" ++ s ++
      "), cannot specify 64-byte hexadecimal strings")
  else
    let (domain, remainder) := splitDockerDomain s
    let remote : String := ⟨strings.before ':' remainder.data⟩
    if strings.ToLower remote != remote then
      .error ("invalid reference format: repository name (" ++ remote ++
        ") must be lowercase")
    else Parse (domain ++ "/" ++ remainder)

end reference

/-! ## Data model of the webhook -/

/-- A Go `map[string]string` that is not `nil`: entries with pairwise distinct keys. -/
structure StringMap where
  entries : List (String × String)
  nodupKeys : (entries.map Prod.fst).Nodup

namespace StringMap

/-- Go `m[key]` in the two-result form `val, ok := m[key]`. -/
def get (m : StringMap) (key : String) : Option String :=
  (m.entries.find? (fun e => e.1 == key)).map Prod.snd

/-- The values a `range` over the map visits. -/
def values (m : StringMap) : List String := m.entries.map Prod.snd

end StringMap

/-- Go `DockerConfig`; `none` is a `nil` slice or a `nil` map. -/
structure DockerConfig where
  IgnoreList : Option (List String)
  DomainMap : Option StringMap

namespace DockerConfig

/-- The values `for _, val := range config.DomainMap` visits (none for a `nil` map). -/
def domainMapValues (config : DockerConfig) : List String :=
  match config.DomainMap with
  | none => []
  | some m => m.values

/-- Go `val, ok := config.DomainMap[domain]` (not found in a `nil` map). -/
def domainMapGet (config : DockerConfig) (domain : String) : Option String :=
  match config.DomainMap with
  | none => none
  | some m => m.get domain

end DockerConfig

/-- Go `corev1.Container`, the fields `Handle` reads or writes. -/
structure Container where
  Name : String
  Image : String
  deriving DecidableEq, Repr

/-- Go `corev1.LocalObjectReference`. -/
structure LocalObjectReference where
  Name : String
  deriving DecidableEq, Repr

/-- Go `corev1.PodSpec`, the fields `Handle` reads or writes. -/
structure PodSpec where
  Containers : List Container
  InitContainers : List Container
  ImagePullSecrets : List LocalObjectReference
  deriving DecidableEq, Repr

/-- Go `corev1.Pod`, the part `Handle` reads or writes. -/
structure Pod where
  Spec : PodSpec
  deriving DecidableEq, Repr

/-- Go `admission.Request`, the fields `Handle` reads; `Raw` is `req.Object.Raw`. -/
structure Request where
  Resource : String
  Namespace : String
  Name : String
  UID : String
  Raw : String
  deriving DecidableEq, Repr

/-- Go `admission.Response` as `Handle` builds it: by `admission.Errored(code, err)`, by
`admission.Allowed(message)` or by `admission.PatchResponseFromRaw(original, current)`. -/
inductive Response where
  | Errored (code : Nat) (err : String) : Response
  | Allowed (message : String) : Response
  | PatchResponseFromRaw (original current : String) : Response
  deriving DecidableEq, Repr

/-- Go `DockerProxyMutatingWebhook`, without the `Client` field, which no method reads.
The decoder is `nil` (`none`) or decodes the request object into a pod. -/
structure DockerProxyMutatingWebhook where
  PullSecret : String
  decoder : Option (Request → Except String Pod)
  config : DockerConfig

/-- Constant `http.StatusInternalServerError`. -/
def StatusInternalServerError : Nat := 500

/-- Constant `http.StatusBadRequest`. -/
def StatusBadRequest : Nat := 400

/-! ## The webhook -/

/-- Pattern `^[a-f0-9]{6,}$`. -/
def anchoredShortIdentifierRegexp : Regex := Regex.atLeast 6 (.cls isLowerHex)

/-- Go `NewDockerProxyMutatingWebhook`; `yamlUnmarshal` is `yaml.Unmarshal` into a fresh
`DockerConfig`. -/
def NewDockerProxyMutatingWebhook (yamlUnmarshal : String → Except String DockerConfig)
    (mutatingWebhookConfig : String) (pullSecret : String) :
    Except String DockerProxyMutatingWebhook :=
  match yamlUnmarshal mutatingWebhookConfig with
  | .error err => .error err
  | .ok config =>
    match config.DomainMap with
    | some _ => .ok { config := config, PullSecret := pullSecret, decoder := none }
    | none => .error "no domain mapping entries set"

/-- Lines 207-211 of `RewriteImage`: some value of `DomainMap` equals `domain`. -/
def matchesMappedValue (config : DockerConfig) (domain : String) : Bool :=
  config.domainMapValues.any (fun val => val == domain)

/-- Lines 202 and 213-235 of `RewriteImage`: the value of `newImage` before the path is
appended. -/
def targetDomain (config : DockerConfig) (domain : String) : String :=
  let newImage := ""
  let newImage :=
    match config.domainMapGet domain with
    | some val => val
    | none => newImage
  let newImage :=
    match config.IgnoreList with
    | some ignoreList => if ignoreList.any (fun ignore => domain == ignore) then domain else newImage
    | none => newImage
  if newImage == "" then domain else newImage

/-- Lines 237-245 of `RewriteImage`: path, tag and digest appended to `newImage`. -/
def rebuild (newImage : String) (named : reference.Named) : String :=
  let newImage := newImage ++ "/" ++ reference.Path named
  let newImage :=
    match named.tag with
    | some t => newImage ++ ":" ++ t
    | none => newImage
  match named.digest with
  | some d => newImage ++ "@" ++ d
  | none => newImage

/-- Go `RewriteImage`. -/
def RewriteImage (image : String) (_namespace : String) (config : DockerConfig) :
    Except String String :=
  if anchoredShortIdentifierRegexp.MatchString image then .ok image
  else
    match reference.ParseNormalizedNamed image with
    | .error err => .error err
    | .ok named =>
      let domain := strings.ToLower (reference.Domain named)
      if matchesMappedValue config domain then .ok image
      else .ok (rebuild (targetDomain config domain) named)

/-- Lines 150-154 of `Handle`: the container and the flag `changed` after the comparison
of `newImage` with the image of the container. -/
def assignImage (container : Container) (newImage : String) (changed : Bool) :
    Container × Bool :=
  if newImage != container.Image then ({ container with Image := newImage }, true)
  else (container, changed)

/-- Lines 142-155 of `Handle`: the loop over the collected containers.  The result is
the error of the first image that fails to rewrite, or the containers after the loop
together with the final value of `changed`. -/
def rewriteContainers (ns : String) (config : DockerConfig) :
    List Container → Bool → Except String (List Container × Bool)
  | [], changed => .ok ([], changed)
  | container :: rest, changed =>
    match RewriteImage container.Image ns config with
    | .error err => .error err
    | .ok newImage =>
      match rewriteContainers ns config rest (assignImage container newImage changed).2 with
      | .error err => .error err
      | .ok (rest1, changed1) =>
        .ok ((assignImage container newImage changed).1 :: rest1, changed1)

/-- Lines 132-166 of `Handle`: the pod after the loop and the pull secret step, with the
final value of `changed`.  The loop runs over the regular containers followed by the init
containers; each of them is updated in its own list. -/
def mutatePod (webhook : DockerProxyMutatingWebhook) (ns : String) (pod : Pod) :
    Except String (Pod × Bool) :=
  match rewriteContainers ns webhook.config
      (pod.Spec.Containers ++ pod.Spec.InitContainers) false with
  | .error err => .error err
  | .ok (containers, changed) =>
    let spec : PodSpec :=
      { pod.Spec with
        Containers := containers.take pod.Spec.Containers.length
        InitContainers := containers.drop pod.Spec.Containers.length }
    let spec : PodSpec :=
      if changed then
        if webhook.PullSecret != "" then
          { spec with ImagePullSecrets := [{ Name := webhook.PullSecret }] }
        else spec
      else spec
    .ok ({ pod with Spec := spec }, changed)

/-- Go `DockerProxyMutatingWebhook.Handle`; `jsonMarshal` is `json.Marshal` on pods. -/
def Handle (jsonMarshal : Pod → Except String String) (webhook : DockerProxyMutatingWebhook)
    (req : Request) : Response :=
  if req.Resource != "pods" then
    .Errored StatusInternalServerError "expect resource to be pods"
  else
    match webhook.decoder with
    | none => .Errored StatusInternalServerError "decoder not initialized"
    | some decode =>
      match decode req with
      | .error err => .Errored StatusBadRequest err
      | .ok pod =>
        match mutatePod webhook req.Namespace pod with
        | .error err => .Errored StatusInternalServerError err
        | .ok (pod1, changed) =>
          match jsonMarshal pod1 with
          | .error err => .Errored StatusInternalServerError err
          | .ok marshaledPod =>
            if changed then .PatchResponseFromRaw req.Raw marshaledPod
            else .Allowed "No \x60image\x60s rewritten"

/-- Go `DockerProxyMutatingWebhook.InjectDecoder`. -/
def InjectDecoder (webhook : DockerProxyMutatingWebhook)
    (decoder : Request → Except String Pod) : DockerProxyMutatingWebhook :=
  { webhook with decoder := some decoder }

/-! ## Vocabulary of the specification -/

/-- The string the specification describes for a rebuilt reference: `domain + "/" + path`,
then `":" + tag` when a tag is present, then `"@" + digest` when a digest is present. -/
def expectedReference (domain path : String) (tag digest : Option String) : String :=
  match tag, digest with
  | none, none => domain ++ "/" ++ path
  | some t, none => domain ++ "/" ++ path ++ ":" ++ t
  | none, some d => domain ++ "/" ++ path ++ "@" ++ d
  | some t, some d => domain ++ "/" ++ path ++ ":" ++ t ++ "@" ++ d

/-- The domain is a value of `DomainMap`: some key is mapped to it. -/
def IsMappedValue (config : DockerConfig) (domain : String) : Prop :=
  ∃ key, config.domainMapGet key = some domain

/-- The domain is a key of `DomainMap`. -/
def IsMappedKey (config : DockerConfig) (domain : String) : Prop :=
  ∃ val, config.domainMapGet domain = some val

/-- The domain is listed in `IgnoreList`. -/
def IsIgnored (config : DockerConfig) (domain : String) : Prop :=
  ∃ ignoreList, config.IgnoreList = some ignoreList ∧ domain ∈ ignoreList

/-- The string is a short identifier in the words of the specification: only the
characters `a`-`f` and `0`-`9`, at least six of them. -/
def IsShortIdentifier (image : String) : Prop :=
  (∀ c ∈ image.data, c ∈ "abcdef0123456789".data) ∧ 6 ≤ image.length

instance (image : String) : Decidable (IsShortIdentifier image) := by
  unfold IsShortIdentifier
  infer_instance

/-! ## Example configurations and pods -/

/-- The policy of the specification's examples: Docker Hub is mirrored. -/
def mirrorConfig : DockerConfig :=
  { IgnoreList := none
    DomainMap := some ⟨[("docker.io", "mirror.example.com")], by decide⟩ }

/-- A policy whose map sends one registry to another that is itself a key. -/
def chainedConfig : DockerConfig :=
  { IgnoreList := none
    DomainMap := some ⟨[("docker.io", "mirror.example.com"), ("quay.io", "docker.io")],
      by decide⟩ }

/-- A policy that maps `quay.io` and lists it in the ignore list as well. -/
def overlapConfig : DockerConfig :=
  { IgnoreList := some ["quay.io"]
    DomainMap := some ⟨[("quay.io", "mirror.example.com")], by decide⟩ }

/-- A policy that says nothing about Docker Hub. -/
def quayOnlyConfig : DockerConfig :=
  { IgnoreList := some ["gcr.io"]
    DomainMap := some ⟨[("quay.io", "mirror.example.com")], by decide⟩ }

/-- A webhook with the given policy and pull secret whose decoder reads `pod` from the
request. -/
def webhookFor (config : DockerConfig) (pullSecret : String) (pod : Pod) :
    DockerProxyMutatingWebhook :=
  { PullSecret := pullSecret
    decoder := some (fun _ => .ok pod)
    config := config }

/-- A serialisation of pods that always succeeds: images and pull secrets, in order. -/
def renderPod (pod : Pod) : Except String String :=
  .ok (String.intercalate ","
    (pod.Spec.Containers.map (fun c => c.Image) ++ pod.Spec.InitContainers.map (fun c => c.Image)
      ++ pod.Spec.ImagePullSecrets.map (fun r => r.Name)))

/-- An admission request for a pod in namespace `default`. -/
def podRequest : Request :=
  { Resource := "pods", Namespace := "default", Name := "web", UID := "1", Raw := "raw" }

/-- The pod of the specification's fifth example, with an init container and an earlier
pull secret: one image to rewrite, one already mirrored. -/
def mixedPod : Pod :=
  { Spec :=
    { Containers := [⟨"app", "nginx:1.25"⟩, ⟨"sidecar", "mirror.example.com/library/nginx:1.25"⟩]
      InitContainers := [⟨"setup", "a1b2c3d4e5f6"⟩]
      ImagePullSecrets := [⟨"old"⟩] } }

/-- The pod `mixedPod` after processing with `mirrorConfig` and pull secret `regcred`. -/
def mixedPodRewritten : Pod :=
  { Spec :=
    { Containers := [⟨"app", "mirror.example.com/library/nginx:1.25"⟩,
        ⟨"sidecar", "mirror.example.com/library/nginx:1.25"⟩]
      InitContainers := [⟨"setup", "a1b2c3d4e5f6"⟩]
      ImagePullSecrets := [⟨"regcred"⟩] } }

/-- A pod whose second container has an image that is no reference. -/
def brokenPod : Pod :=
  { Spec :=
    { Containers := [⟨"app", "nginx:1.25"⟩, ⟨"bad", "Nginx"⟩]
      InitContainers := []
      ImagePullSecrets := [] } }

/-- A pod whose images are all mirrored already. -/
def mirroredPod : Pod :=
  { Spec :=
    { Containers := [⟨"app", "mirror.example.com/library/nginx:1.25"⟩]
      InitContainers := [⟨"setup", "mirror.example.com/library/busybox"⟩]
      ImagePullSecrets := [⟨"old"⟩] } }

/-- A policy whose map is present and has no entries, as `domainMap: {}` decodes. -/
def emptyMapConfig : DockerConfig :=
  { IgnoreList := none
    DomainMap := some ⟨[], by decide⟩ }

end DockerProxy

namespace DockerProxy

/-! ## Lemmas on the regular expression matcher -/

theorem starLoop_all (p : Char → Bool)
    (step : List Char → Caps → (List Char → Caps → Option Caps) → Option Caps)
    (hnil : ∀ c k, step [] c k = none)
    (hcons : ∀ x t c k, step (x :: t) c k = if p x then k t c else none)
    (k : List Char → Caps → Option Caps) (c r : Caps) (hk : k [] c = some r) :
    ∀ (s : List Char) (n : Nat), s.length ≤ n → (∀ x ∈ s, p x = true) →
      starLoop step n s c k = some r := by
  intro s
  induction s with
  | nil =>
    intro n _ _
    cases n with
    | zero => simpa [starLoop] using hk
    | succ m => simp [starLoop, hnil, hk]
  | cons x t ih =>
    intro n hn hall
    cases n with
    | zero => simp at hn
    | succ m =>
      have hx : p x = true := hall x (List.mem_cons_self x t)
      have ht : ∀ y ∈ t, p y = true := fun y hy => hall y (List.mem_cons_of_mem x hy)
      have hm : t.length ≤ m := by simpa using hn
      simp [starLoop, hcons, hx, ih m hm ht]

theorem times_cls_run (p : Char → Bool) (k : List Char → Caps → Option Caps) (c : Caps) :
    ∀ (n : Nat) (pre rest : List Char), pre.length = n → (∀ x ∈ pre, p x = true) →
      (Regex.times n (.cls p)).run (pre ++ rest) c k = k rest c := by
  intro n
  induction n with
  | zero =>
    intro pre rest hlen _
    have : pre = [] := List.length_eq_zero.mp hlen
    subst this
    simp [Regex.times, Regex.run]
  | succ m ih =>
    intro pre rest hlen hall
    cases pre with
    | nil => simp at hlen
    | cons x t =>
      have hx : p x = true := hall x (List.mem_cons_self x t)
      have ht : ∀ y ∈ t, p y = true := fun y hy => hall y (List.mem_cons_of_mem x hy)
      have hm : t.length = m := by simpa using hlen
      simp [Regex.times, Regex.run, hx, ih t rest hm ht]

theorem atLeast_cls_matches (p : Char → Bool) (n : Nat) (s : String)
    (hall : ∀ x ∈ s.data, p x = true) (hlen : n ≤ s.length) :
    (Regex.atLeast n (.cls p)).MatchString s = true := by
  have hsplit : s.data = s.data.take n ++ s.data.drop n := (List.take_append_drop n s.data).symm
  have hpre : (s.data.take n).length = n := by
    rw [List.length_take]
    exact Nat.min_eq_left hlen
  have hallpre : ∀ x ∈ s.data.take n, p x = true := fun x hx => hall x (List.mem_of_mem_take hx)
  have halldrop : ∀ x ∈ s.data.drop n, p x = true := fun x hx => hall x (List.mem_of_mem_drop hx)
  unfold Regex.MatchString Regex.atLeast
  rw [hsplit]
  rw [Regex.run, times_cls_run p _ [] n _ _ hpre hallpre, Regex.run]
  rw [starLoop_all p (Regex.cls p).run (fun _ _ => rfl) (fun _ _ _ _ => rfl) _ [] []
    (by simp) _ _ (Nat.le_refl _) halldrop]
  rfl

theorem isLowerHex_of_mem {c : Char} (h : c ∈ "abcdef0123456789".data) : isLowerHex c = true := by
  simp only [String.data, List.mem_cons, List.mem_singleton, List.not_mem_nil, or_false] at h
  rcases h with h | h | h | h | h | h | h | h | h | h | h | h | h | h | h | h <;> subst h <;> decide

theorem shortIdentifier_matches (image : String) (h : IsShortIdentifier image) :
    anchoredShortIdentifierRegexp.MatchString image = true :=
  atLeast_cls_matches isLowerHex 6 image (fun x hx => isLowerHex_of_mem (h.1 x hx)) h.2

theorem mem_of_isLowerHex {c : Char} (h : isLowerHex c = true) : c ∈ "abcdef0123456789".data := by
  have hc : c = Char.ofNat c.toNat := (Char.ofNat_toNat c).symm
  simp only [isLowerHex, isDigit09, Bool.or_eq_true, Bool.and_eq_true, decide_eq_true_eq] at h
  have h1 : 'a'.toNat = 97 := by decide
  have h2 : 'f'.toNat = 102 := by decide
  have h3 : '0'.toNat = 48 := by decide
  have h4 : '9'.toNat = 57 := by decide
  rw [h1, h2, h3, h4] at h
  rw [hc]
  rcases h with ⟨ha, hb⟩ | ⟨ha, hb⟩ <;> interval_cases c.toNat <;> decide

theorem times_cls_run_some (p : Char → Bool) (k : List Char → Caps → Option Caps) (c r : Caps) :
    ∀ (n : Nat) (s : List Char), (Regex.times n (.cls p)).run s c k = some r →
      ∃ pre rest, s = pre ++ rest ∧ pre.length = n ∧ (∀ x ∈ pre, p x = true) ∧
        k rest c = some r := by
  intro n
  induction n with
  | zero =>
    intro s h
    exact ⟨[], s, rfl, rfl, by simp, by simpa [Regex.times, Regex.run] using h⟩
  | succ m ih =>
    intro s h
    cases s with
    | nil => simp [Regex.times, Regex.run] at h
    | cons x t =>
      simp only [Regex.times, Regex.run] at h
      by_cases hx : p x = true
      · rw [if_pos hx] at h
        obtain ⟨pre, rest, hs, hlen, hall, hk⟩ := ih t h
        refine ⟨x :: pre, rest, by rw [hs]; rfl, by simp [hlen], ?_, hk⟩
        intro y hy
        rcases List.mem_cons.mp hy with h1 | h1
        · rw [h1]; exact hx
        · exact hall y h1
      · rw [if_neg hx] at h
        exact Option.noConfusion h

theorem starLoop_some (p : Char → Bool)
    (step : List Char → Caps → (List Char → Caps → Option Caps) → Option Caps)
    (hnil : ∀ c k, step [] c k = none)
    (hcons : ∀ x t c k, step (x :: t) c k = if p x then k t c else none)
    (k : List Char → Caps → Option Caps) (c r : Caps) :
    ∀ (n : Nat) (s : List Char), starLoop step n s c k = some r →
      ∃ pre rest, s = pre ++ rest ∧ (∀ x ∈ pre, p x = true) ∧ k rest c = some r := by
  intro n
  induction n with
  | zero =>
    intro s h
    exact ⟨[], s, rfl, by simp, by simpa [starLoop] using h⟩
  | succ m ih =>
    intro s h
    cases s with
    | nil =>
      simp only [starLoop, hnil] at h
      exact ⟨[], [], rfl, by simp, h⟩
    | cons x t =>
      simp only [starLoop, hcons] at h
      by_cases hx : p x = true
      · simp only [hx, if_true, List.length_cons, Nat.lt_succ_self] at h
        cases hrec : starLoop step m t c k with
        | none =>
          rw [hrec] at h
          exact ⟨[], x :: t, rfl, by simp, h⟩
        | some r1 =>
          rw [hrec] at h
          have hr : r1 = r := Option.some.inj h
          rw [hr] at hrec
          obtain ⟨pre, rest, hs, hall, hk⟩ := ih t hrec
          refine ⟨x :: pre, rest, by rw [hs]; rfl, ?_, hk⟩
          intro y hy
          rcases List.mem_cons.mp hy with h1 | h1
          · rw [h1]; exact hx
          · exact hall y h1
      · simp only [hx] at h
        exact ⟨[], x :: t, rfl, by simp, h⟩

theorem atLeast_cls_matches_only (p : Char → Bool) (n : Nat) (s : String)
    (h : (Regex.atLeast n (.cls p)).MatchString s = true) :
    (∀ x ∈ s.data, p x = true) ∧ n ≤ s.length := by
  unfold Regex.MatchString Regex.atLeast at h
  obtain ⟨r, hr⟩ := Option.isSome_iff_exists.mp h
  rw [Regex.run] at hr
  obtain ⟨pre, rest, hs, hlen, hall, hk⟩ := times_cls_run_some p _ [] r n _ hr
  rw [Regex.run] at hk
  obtain ⟨pre2, rest2, hs2, hall2, hk2⟩ :=
    starLoop_some p (Regex.cls p).run (fun _ _ => rfl) (fun _ _ _ _ => rfl) _ [] r _ _ hk
  have hrest2 : rest2 = [] := by
    cases rest2 with
    | nil => rfl
    | cons y t => simp at hk2
  subst hrest2
  have hdata : s.data = pre ++ pre2 := by rw [hs, hs2, List.append_nil]
  constructor
  · intro x hx
    rw [hdata] at hx
    rcases List.mem_append.mp hx with h1 | h1
    · exact hall x h1
    · exact hall2 x h1
  · have : s.length = (pre ++ pre2).length := by rw [← hdata]; rfl
    rw [this, List.length_append, hlen]
    exact Nat.le_add_right n _

theorem shortIdentifier_iff (image : String) :
    anchoredShortIdentifierRegexp.MatchString image = true ↔ IsShortIdentifier image := by
  constructor
  · intro h
    obtain ⟨hall, hlen⟩ := atLeast_cls_matches_only isLowerHex 6 image h
    exact ⟨fun c hc => mem_of_isLowerHex (hall c hc), hlen⟩
  · exact shortIdentifier_matches image

/-! ## Lemmas on the policy lookups -/

theorem find_of_mem_nodupKeys (key val : String) :
    ∀ (entries : List (String × String)), (entries.map Prod.fst).Nodup →
      (key, val) ∈ entries → entries.find? (fun e => e.1 == key) = some (key, val) := by
  intro entries
  induction entries with
  | nil => intro _ h; simp at h
  | cons e rest ih =>
    intro hnd hmem
    rw [List.map_cons, List.nodup_cons] at hnd
    rcases List.mem_cons.mp hmem with h | h
    · subst h
      simp
    · have hne : e.1 ≠ key := by
        intro he
        apply hnd.1
        rw [he]
        exact List.mem_map_of_mem Prod.fst h
      have hbeq : (e.1 == key) = false := by simpa using hne
      rw [List.find?_cons, hbeq]
      exact ih hnd.2 h

theorem matchesMappedValue_iff (config : DockerConfig) (domain : String) :
    matchesMappedValue config domain = true ↔ IsMappedValue config domain := by
  unfold matchesMappedValue IsMappedValue DockerConfig.domainMapValues DockerConfig.domainMapGet
  cases hm : config.DomainMap with
  | none => simp
  | some m =>
    simp only [StringMap.values, StringMap.get, List.any_eq_true, beq_iff_eq, List.mem_map]
    constructor
    · rintro ⟨v, ⟨e, he, hev⟩, hv⟩
      refine ⟨e.1, ?_⟩
      have hfind := find_of_mem_nodupKeys e.1 e.2 m.entries m.nodupKeys (by simpa using he)
      rw [hfind]
      simp [hev, hv]
    · rintro ⟨key, hkey⟩
      cases hf : m.entries.find? (fun e => e.1 == key) with
      | none => simp [hf] at hkey
      | some e =>
        rw [hf] at hkey
        have hmem : e ∈ m.entries := List.mem_of_find?_eq_some hf
        exact ⟨e.2, ⟨e, hmem, rfl⟩, by simpa using hkey⟩

theorem ignoreList_any_iff (config : DockerConfig) (domain : String) (ignoreList : List String)
    (h : config.IgnoreList = some ignoreList) :
    ignoreList.any (fun ignore => domain == ignore) = true ↔ IsIgnored config domain := by
  unfold IsIgnored
  rw [h]
  constructor
  · intro hany
    refine ⟨ignoreList, rfl, ?_⟩
    obtain ⟨x, hx, hxe⟩ := List.any_eq_true.mp hany
    have : domain = x := by simpa using hxe
    rw [this]
    exact hx
  · rintro ⟨l, hl, hmem⟩
    cases hl
    exact List.any_eq_true.mpr ⟨domain, hmem, by simp⟩

theorem targetDomain_ignored (config : DockerConfig) (domain : String)
    (h : IsIgnored config domain) : targetDomain config domain = domain := by
  obtain ⟨l, hl, hmem⟩ := h
  have hany : l.any (fun ignore => domain == ignore) = true :=
    (ignoreList_any_iff config domain l hl).mpr ⟨l, hl, hmem⟩
  unfold targetDomain
  simp only [hl, hany, if_true]
  split <;> rfl

theorem targetDomain_not_ignored (config : DockerConfig) (domain : String)
    (h : ¬ IsIgnored config domain) :
    targetDomain config domain =
      match config.domainMapGet domain with
      | some val => if val == "" then domain else val
      | none => domain := by
  unfold targetDomain
  cases hl : config.IgnoreList with
  | none => cases config.domainMapGet domain <;> simp
  | some l =>
    have hany : l.any (fun ignore => domain == ignore) = false := by
      cases hb : l.any (fun ignore => domain == ignore) with
      | false => rfl
      | true => exact absurd ((ignoreList_any_iff config domain l hl).mp hb) h
    simp only [hany]
    cases config.domainMapGet domain <;> simp

theorem matchString_false_of_not_short (image : String) (h : ¬ IsShortIdentifier image) :
    anchoredShortIdentifierRegexp.MatchString image = false := by
  cases hb : anchoredShortIdentifierRegexp.MatchString image with
  | false => rfl
  | true => exact absurd ((shortIdentifier_iff image).mp hb) h

theorem rebuild_eq_expected (newImage : String) (named : reference.Named) :
    rebuild newImage named
      = expectedReference newImage (reference.Path named) named.tag named.digest := by
  unfold rebuild expectedReference
  cases named.tag <;> cases named.digest <;> rfl

theorem RewriteImage_parsed (image ns : String) (config : DockerConfig)
    (named : reference.Named)
    (hnotshort : ¬ IsShortIdentifier image)
    (hparse : reference.ParseNormalizedNamed image = .ok named) :
    RewriteImage image ns config =
      if matchesMappedValue config (strings.ToLower (reference.Domain named)) then .ok image
      else .ok (expectedReference (targetDomain config (strings.ToLower (reference.Domain named)))
        (reference.Path named) named.tag named.digest) := by
  have hshort := matchString_false_of_not_short image hnotshort
  unfold RewriteImage
  simp only [hshort, hparse, rebuild_eq_expected]
  rfl

/-! ## The claims on `RewriteImage` -/

/-- Claim C1: an image that is not a short identifier and parses, and whose lower-cased
domain is a value of `DomainMap`, is returned as it was given, without error, whatever the
ignore list holds and whether or not the domain is a key of the map too. -/
theorem C1_already_mirrored_is_returned_unchanged (image ns : String) (config : DockerConfig)
    (named : reference.Named)
    (hnotshort : ¬ IsShortIdentifier image)
    (hparse : reference.ParseNormalizedNamed image = .ok named)
    (hvalue : IsMappedValue config (strings.ToLower (reference.Domain named))) :
    RewriteImage image ns config = .ok image := by
  rw [RewriteImage_parsed image ns config named hnotshort hparse]
  rw [(matchesMappedValue_iff config _).mpr hvalue]
  rfl

/-- Witness of claim C1: the already mirrored image of the specification's second
example. -/
theorem C1_witness :
    RewriteImage "mirror.example.com/library/nginx:1.25" "default" mirrorConfig
      = .ok "mirror.example.com/library/nginx:1.25" :=
  C1_already_mirrored_is_returned_unchanged "mirror.example.com/library/nginx:1.25" "default"
    mirrorConfig ⟨"mirror.example.com", "library/nginx", some "1.25", none⟩
    (by decide) (by rfl) ⟨"docker.io", by rfl⟩

/-- Claim C2 as stated fails: with `docker.io` a key of the map, absent from the ignore
list, and also the value of another key, `nginx:1.25` is returned as given and not as
`mirror.example.com/library/nginx:1.25`. -/
theorem C2_counterexample :
    ¬ IsShortIdentifier "nginx:1.25" ∧
    reference.ParseNormalizedNamed "nginx:1.25"
      = .ok ⟨"docker.io", "library/nginx", some "1.25", none⟩ ∧
    chainedConfig.domainMapGet (strings.ToLower "docker.io") = some "mirror.example.com" ∧
    ¬ IsIgnored chainedConfig (strings.ToLower "docker.io") ∧
    RewriteImage "nginx:1.25" "default" chainedConfig = .ok "nginx:1.25" ∧
    RewriteImage "nginx:1.25" "default" chainedConfig
      ≠ .ok (expectedReference "mirror.example.com" "library/nginx" (some "1.25") none) := by
  have hrun : RewriteImage "nginx:1.25" "default" chainedConfig = .ok "nginx:1.25" := by rfl
  refine ⟨by decide, by rfl, by rfl, ?_, hrun, ?_⟩
  · rintro ⟨l, hl, _⟩
    simp [chainedConfig] at hl
  · rw [hrun]
    intro h
    exact absurd (Except.ok.inj h) (by decide)

/-- Claim C2, amended: an image that is not a short identifier and parses, whose
lower-cased domain is a key of `DomainMap` with a non-empty mapped value, is not a value
of `DomainMap` and is not in `IgnoreList`, is rewritten to the mapped value, then `/` and
the path, then `:` and the tag when there is one, then `@` and the digest when there is
one. -/
theorem C2_mapped_domain_is_replaced (image ns : String) (config : DockerConfig)
    (named : reference.Named) (val : String)
    (hnotshort : ¬ IsShortIdentifier image)
    (hparse : reference.ParseNormalizedNamed image = .ok named)
    (hkey : config.domainMapGet (strings.ToLower (reference.Domain named)) = some val)
    (hnonempty : val ≠ "")
    (hnotvalue : ¬ IsMappedValue config (strings.ToLower (reference.Domain named)))
    (hnotignored : ¬ IsIgnored config (strings.ToLower (reference.Domain named))) :
    RewriteImage image ns config
      = .ok (expectedReference val (reference.Path named) named.tag named.digest) := by
  rw [RewriteImage_parsed image ns config named hnotshort hparse]
  have hm : matchesMappedValue config (strings.ToLower (reference.Domain named)) = false := by
    cases hb : matchesMappedValue config (strings.ToLower (reference.Domain named)) with
    | false => rfl
    | true => exact absurd ((matchesMappedValue_iff config _).mp hb) hnotvalue
  have ht : targetDomain config (strings.ToLower (reference.Domain named)) = val := by
    rw [targetDomain_not_ignored config _ hnotignored, hkey]
    simp [hnonempty]
  rw [hm, ht]
  rfl

/-- Witness of claim C2: the specification's first example, `nginx:1.25` under a policy
that mirrors Docker Hub. -/
theorem C2_witness :
    RewriteImage "nginx:1.25" "default" mirrorConfig
      = .ok "mirror.example.com/library/nginx:1.25" :=
  C2_mapped_domain_is_replaced "nginx:1.25" "default" mirrorConfig
    ⟨"docker.io", "library/nginx", some "1.25", none⟩ "mirror.example.com"
    (by decide) (by rfl) (by rfl) (by decide)
    (by
      intro h
      have hb := (matchesMappedValue_iff mirrorConfig (strings.ToLower "docker.io")).mpr h
      exact absurd hb (by decide))
    (by
      rintro ⟨l, hl, _⟩
      simp [mirrorConfig] at hl)

/-- Claim C3: an image that is not a short identifier and parses, whose lower-cased
domain is in `IgnoreList` and is not a value of `DomainMap`, is rebuilt with its own
domain: domain, `/`, path, then `:` and the tag when there is one, then `@` and the
digest when there is one.  Nothing is assumed on the keys of `DomainMap`, so this holds
when the domain is a key as well: the ignore list wins over the mapping. -/
theorem C3_ignored_domain_is_kept (image ns : String) (config : DockerConfig)
    (named : reference.Named)
    (hnotshort : ¬ IsShortIdentifier image)
    (hparse : reference.ParseNormalizedNamed image = .ok named)
    (hignored : IsIgnored config (strings.ToLower (reference.Domain named)))
    (hnotvalue : ¬ IsMappedValue config (strings.ToLower (reference.Domain named))) :
    RewriteImage image ns config
      = .ok (expectedReference (strings.ToLower (reference.Domain named))
          (reference.Path named) named.tag named.digest) := by
  rw [RewriteImage_parsed image ns config named hnotshort hparse]
  have hm : matchesMappedValue config (strings.ToLower (reference.Domain named)) = false := by
    cases hb : matchesMappedValue config (strings.ToLower (reference.Domain named)) with
    | false => rfl
    | true => exact absurd ((matchesMappedValue_iff config _).mp hb) hnotvalue
  rw [hm, targetDomain_ignored config _ hignored]
  rfl

/-- Witness of claim C3: `quay.io` is both a key of the map and in the ignore list, the
image carries a tag and a digest, and it comes back with `quay.io` in place. -/
theorem C3_witness :
    IsMappedKey overlapConfig "quay.io" ∧
    RewriteImage
        "quay.io/foo/bar:v1@sha256:0123456789abcdef0123456789abcdef0123456789abcdef0123456789abcdef"
        "default" overlapConfig
      = .ok
        "quay.io/foo/bar:v1@sha256:0123456789abcdef0123456789abcdef0123456789abcdef0123456789abcdef" :=
  ⟨⟨"mirror.example.com", by rfl⟩,
   C3_ignored_domain_is_kept
    "quay.io/foo/bar:v1@sha256:0123456789abcdef0123456789abcdef0123456789abcdef0123456789abcdef"
    "default" overlapConfig
    ⟨"quay.io", "foo/bar", some "v1",
      some "sha256:0123456789abcdef0123456789abcdef0123456789abcdef0123456789abcdef"⟩
    (by decide) (by rfl) ⟨["quay.io"], rfl, by decide⟩
    (by
      intro h
      have hb := (matchesMappedValue_iff overlapConfig (strings.ToLower "quay.io")).mpr h
      exact absurd hb (by decide))⟩

/-- Claim C4 as stated fails: `docker.io` is neither a key of the map nor in the ignore
list, and `nginx:1.25` comes back as `docker.io/library/nginx:1.25`, not as given. -/
theorem C4_counterexample :
    ¬ IsShortIdentifier "nginx:1.25" ∧
    reference.ParseNormalizedNamed "nginx:1.25"
      = .ok ⟨"docker.io", "library/nginx", some "1.25", none⟩ ∧
    ¬ IsMappedKey quayOnlyConfig (strings.ToLower "docker.io") ∧
    ¬ IsIgnored quayOnlyConfig (strings.ToLower "docker.io") ∧
    RewriteImage "nginx:1.25" "default" quayOnlyConfig = .ok "docker.io/library/nginx:1.25" ∧
    RewriteImage "nginx:1.25" "default" quayOnlyConfig ≠ .ok "nginx:1.25" := by
  have hrun : RewriteImage "nginx:1.25" "default" quayOnlyConfig
      = .ok "docker.io/library/nginx:1.25" := by rfl
  refine ⟨by decide, by rfl, ?_, ?_, hrun, ?_⟩
  · rintro ⟨val, hval⟩
    have hnone : quayOnlyConfig.domainMapGet (strings.ToLower "docker.io") = none := by rfl
    rw [hnone] at hval
    exact Option.noConfusion hval
  · rintro ⟨l, hl, hmem⟩
    have hl2 : l = ["gcr.io"] := by
      have h := hl
      simp only [quayOnlyConfig, Option.some.injEq] at h
      exact h.symm
    subst hl2
    exact absurd hmem (by decide)
  · rw [hrun]
    intro h
    exact absurd (Except.ok.inj h) (by decide)

/-- Claim C4, amended: an image that is not a short identifier and parses, whose
lower-cased domain is neither a key of `DomainMap` nor in `IgnoreList`, is returned as
given when that domain is a value of `DomainMap`, and is otherwise rebuilt as the
lower-cased domain, `/`, the path, then `:` and the tag when there is one, then `@` and
the digest when there is one.  The result is the input string exactly when the domain is
a value of `DomainMap` or the input is already that rebuilt string. -/
theorem C4_unmapped_domain_is_rebuilt (image ns : String) (config : DockerConfig)
    (named : reference.Named)
    (hnotshort : ¬ IsShortIdentifier image)
    (hparse : reference.ParseNormalizedNamed image = .ok named)
    (hnotkey : ¬ IsMappedKey config (strings.ToLower (reference.Domain named)))
    (hnotignored : ¬ IsIgnored config (strings.ToLower (reference.Domain named))) :
    (IsMappedValue config (strings.ToLower (reference.Domain named)) →
      RewriteImage image ns config = .ok image) ∧
    (¬ IsMappedValue config (strings.ToLower (reference.Domain named)) →
      RewriteImage image ns config
        = .ok (expectedReference (strings.ToLower (reference.Domain named))
            (reference.Path named) named.tag named.digest)) ∧
    (RewriteImage image ns config = .ok image ↔
      (IsMappedValue config (strings.ToLower (reference.Domain named)) ∨
        image = expectedReference (strings.ToLower (reference.Domain named))
            (reference.Path named) named.tag named.digest)) := by
  have ht : targetDomain config (strings.ToLower (reference.Domain named))
      = strings.ToLower (reference.Domain named) := by
    rw [targetDomain_not_ignored config _ hnotignored]
    cases hg : config.domainMapGet (strings.ToLower (reference.Domain named)) with
    | none => rfl
    | some val => exact absurd ⟨val, hg⟩ hnotkey
  have hrun := RewriteImage_parsed image ns config named hnotshort hparse
  rw [ht] at hrun
  cases hb : matchesMappedValue config (strings.ToLower (reference.Domain named)) with
  | true =>
    have hv := (matchesMappedValue_iff config _).mp hb
    rw [hb] at hrun
    exact ⟨fun _ => hrun, fun hn => absurd hv hn, fun _ => Or.inl hv, fun _ => hrun⟩
  | false =>
    have hv : ¬ IsMappedValue config (strings.ToLower (reference.Domain named)) := by
      intro h
      rw [(matchesMappedValue_iff config _).mpr h] at hb
      exact Bool.noConfusion hb
    rw [hb] at hrun
    refine ⟨fun h => absurd h hv, fun _ => hrun, ?_, ?_⟩
    · intro h
      rw [hrun] at h
      exact Or.inr (Except.ok.inj h).symm
    · rintro (h | h)
      · exact absurd h hv
      · rw [hrun, ← h]
        rfl

/-- Witness of claim C4: written out in full, the image of the counterexample is
returned as it is. -/
theorem C4_witness :
    RewriteImage "docker.io/library/nginx:1.25" "default" quayOnlyConfig
      = .ok "docker.io/library/nginx:1.25" :=
  (C4_unmapped_domain_is_rebuilt "docker.io/library/nginx:1.25" "default" quayOnlyConfig
    ⟨"docker.io", "library/nginx", some "1.25", none⟩ (by decide) (by rfl)
    (by
      rintro ⟨val, hval⟩
      have hnone : quayOnlyConfig.domainMapGet (strings.ToLower "docker.io") = none := by rfl
      rw [show quayOnlyConfig.domainMapGet (strings.ToLower (reference.Domain
        ⟨"docker.io", "library/nginx", some "1.25", none⟩)) = none from hnone] at hval
      exact Option.noConfusion hval)
    (by
      rintro ⟨l, hl, hmem⟩
      have hl2 : l = ["gcr.io"] := by
        have h := hl
        simp only [quayOnlyConfig, Option.some.injEq] at h
        exact h.symm
      subst hl2
      exact absurd hmem (by decide))).2.2.mpr (Or.inr (by rfl))

/-- Claim C5: a string made only of the characters `a`-`f` and `0`-`9`, at least six of
them, is returned as it is, without error, for every namespace and every configuration;
the outcome does not depend on whether the reference parser would accept the string. -/
theorem C5_short_identifier_passes_through (image ns : String) (config : DockerConfig)
    (hid : IsShortIdentifier image) :
    RewriteImage image ns config = .ok image := by
  unfold RewriteImage
  rw [shortIdentifier_matches image hid]
  rfl

/-- Witness of claim C5: a 64 character identifier, which the reference parser rejects,
is returned unchanged. -/
theorem C5_witness :
    (∃ err, reference.ParseNormalizedNamed
        "0123456789abcdef0123456789abcdef0123456789abcdef0123456789abcdef" = .error err) ∧
    RewriteImage "0123456789abcdef0123456789abcdef0123456789abcdef0123456789abcdef" "default"
        mirrorConfig
      = .ok "0123456789abcdef0123456789abcdef0123456789abcdef0123456789abcdef" :=
  ⟨⟨_, by rfl⟩,
   C5_short_identifier_passes_through
    "0123456789abcdef0123456789abcdef0123456789abcdef0123456789abcdef" "default" mirrorConfig
    ⟨by decide, by decide⟩⟩

/-- Claim C10: the policy lookups of `RewriteImage` use the lower-cased parsed domain.
For two images that are not short identifiers and parse to references with the same
path, tag and digest and with domains that agree after lower-casing: when the lower-cased
domain is a value of `DomainMap` each image is returned as given; otherwise both are
rebuilt on the target domain computed from the lower-cased domain, and the two results
are the same string. -/
theorem C10_domain_case_is_folded (image1 image2 ns : String) (config : DockerConfig)
    (named1 named2 : reference.Named)
    (hnotshort1 : ¬ IsShortIdentifier image1)
    (hparse1 : reference.ParseNormalizedNamed image1 = .ok named1)
    (hnotshort2 : ¬ IsShortIdentifier image2)
    (hparse2 : reference.ParseNormalizedNamed image2 = .ok named2)
    (hdomain : strings.ToLower (reference.Domain named1)
      = strings.ToLower (reference.Domain named2))
    (hpath : reference.Path named1 = reference.Path named2)
    (htag : named1.tag = named2.tag) (hdigest : named1.digest = named2.digest) :
    (IsMappedValue config (strings.ToLower (reference.Domain named1)) →
      RewriteImage image1 ns config = .ok image1 ∧
      RewriteImage image2 ns config = .ok image2) ∧
    (¬ IsMappedValue config (strings.ToLower (reference.Domain named1)) →
      RewriteImage image1 ns config
        = .ok (expectedReference (targetDomain config (strings.ToLower (reference.Domain named1)))
            (reference.Path named1) named1.tag named1.digest) ∧
      RewriteImage image2 ns config = RewriteImage image1 ns config) := by
  have h1 := RewriteImage_parsed image1 ns config named1 hnotshort1 hparse1
  have h2 := RewriteImage_parsed image2 ns config named2 hnotshort2 hparse2
  rw [← hdomain, ← hpath, ← htag, ← hdigest] at h2
  cases hb : matchesMappedValue config (strings.ToLower (reference.Domain named1)) with
  | true =>
    have hv := (matchesMappedValue_iff config _).mp hb
    rw [hb] at h1 h2
    exact ⟨fun _ => ⟨h1, h2⟩, fun hn => absurd hv hn⟩
  | false =>
    have hv : ¬ IsMappedValue config (strings.ToLower (reference.Domain named1)) := by
      intro h
      rw [(matchesMappedValue_iff config _).mpr h] at hb
      exact Bool.noConfusion hb
    rw [hb] at h1 h2
    exact ⟨fun h => absurd h hv, fun _ => ⟨h1, h2.trans h1.symm⟩⟩

/-- Witness of claim C10: `Docker.IO` and `docker.io` are looked up alike. -/
theorem C10_witness :
    reference.ParseNormalizedNamed "Docker.IO/library/nginx:1.25"
      = .ok ⟨"Docker.IO", "library/nginx", some "1.25", none⟩ ∧
    RewriteImage "Docker.IO/library/nginx:1.25" "default" mirrorConfig
      = .ok "mirror.example.com/library/nginx:1.25" ∧
    RewriteImage "docker.io/library/nginx:1.25" "default" mirrorConfig
      = RewriteImage "Docker.IO/library/nginx:1.25" "default" mirrorConfig :=
  ⟨by rfl,
   (C10_domain_case_is_folded "Docker.IO/library/nginx:1.25" "docker.io/library/nginx:1.25"
    "default" mirrorConfig ⟨"Docker.IO", "library/nginx", some "1.25", none⟩
    ⟨"docker.io", "library/nginx", some "1.25", none⟩
    (by decide) (by rfl) (by decide) (by rfl) (by rfl) rfl rfl rfl).2
    (by
      intro h
      have hb := (matchesMappedValue_iff mirrorConfig (strings.ToLower "Docker.IO")).mpr h
      exact absurd hb (by decide))⟩

/-! ## Lemmas on the container loop -/

theorem rewriteContainers_error (ns : String) (config : DockerConfig) :
    ∀ (l : List Container) (changed : Bool),
      (∃ c ∈ l, ∃ e, RewriteImage c.Image ns config = .error e) →
      ∃ err, rewriteContainers ns config l changed = .error err ∧
        ∃ c ∈ l, RewriteImage c.Image ns config = .error err := by
  intro l
  induction l with
  | nil =>
    rintro _ ⟨c, hc, _⟩
    simp at hc
  | cons x rest ih =>
    rintro changed ⟨c, hc, e, he⟩
    unfold rewriteContainers
    cases hx : RewriteImage x.Image ns config with
    | error err => exact ⟨err, rfl, x, List.mem_cons_self x rest, hx⟩
    | ok newImage =>
      have hrest : c ∈ rest := by
        rcases List.mem_cons.mp hc with h | h
        · subst h
          rw [hx] at he
          exact Except.noConfusion he
        · exact h
      obtain ⟨err, herr, c1, hc1, he1⟩ :=
        ih (assignImage x newImage changed).2 ⟨c, hrest, e, he⟩
      exact ⟨err, by simp only [herr], c1, List.mem_cons_of_mem x hc1, he1⟩

theorem rewriteContainers_ok (ns : String) (config : DockerConfig) :
    ∀ (l : List Container) (changed : Bool),
      (∀ c ∈ l, ∃ r, RewriteImage c.Image ns config = .ok r) →
      ∃ l1 changed1, rewriteContainers ns config l changed = .ok (l1, changed1) := by
  intro l
  induction l with
  | nil => intro changed _; exact ⟨[], changed, rfl⟩
  | cons x rest ih =>
    intro changed hall
    obtain ⟨r, hr⟩ := hall x (List.mem_cons_self x rest)
    obtain ⟨l1, changed1, hrec⟩ :=
      ih (assignImage x r changed).2 (fun c hc => hall c (List.mem_cons_of_mem x hc))
    refine ⟨(assignImage x r changed).1 :: l1, changed1, ?_⟩
    unfold rewriteContainers
    simp only [hr, hrec]

theorem assignImage_same (x : Container) (changed : Bool) :
    assignImage x x.Image changed = (x, changed) := by
  simp [assignImage]

theorem assignImage_differs (x : Container) (r : String) (changed : Bool) (h : r ≠ x.Image) :
    assignImage x r changed = ({ x with Image := r }, true) := by
  simp [assignImage, h]

theorem rewriteContainers_spec (ns : String) (config : DockerConfig) :
    ∀ (l : List Container) (changed : Bool) (l1 : List Container) (changed1 : Bool),
      rewriteContainers ns config l changed = .ok (l1, changed1) →
      l1.length = l.length ∧
      (changed1 = true ↔ (changed = true ∨ l1 ≠ l)) ∧
      (changed1 = true ↔
        (changed = true ∨ ∃ c ∈ l, RewriteImage c.Image ns config ≠ .ok c.Image)) := by
  intro l
  induction l with
  | nil =>
    intro changed l1 changed1 h
    simp only [rewriteContainers, Except.ok.injEq, Prod.mk.injEq] at h
    obtain ⟨h1, h2⟩ := h
    subst h1 h2
    simp
  | cons x rest ih =>
    intro changed l1 changed1 h
    unfold rewriteContainers at h
    cases hx : RewriteImage x.Image ns config with
    | error err =>
      rw [hx] at h
      exact Except.noConfusion h
    | ok r =>
      rw [hx] at h
      simp only at h
      cases hrec : rewriteContainers ns config rest (assignImage x r changed).2 with
      | error err =>
        rw [hrec] at h
        exact Except.noConfusion h
      | ok res =>
        obtain ⟨rest1, ch1⟩ := res
        rw [hrec] at h
        simp only [Except.ok.injEq, Prod.mk.injEq] at h
        obtain ⟨hl1, hch⟩ := h
        subst hl1 hch
        obtain ⟨ihlen, ihne, ihex⟩ := ih _ _ _ hrec
        by_cases hsame : r = x.Image
        · subst hsame
          rw [assignImage_same] at ihne ihex ⊢
          refine ⟨by simp [ihlen], ?_, ?_⟩
          · rw [ihne]
            simp
          · rw [ihex]
            simp [hx]
        · rw [assignImage_differs x r changed hsame] at ihne ihex ⊢
          have hch : ch1 = true := ihne.mpr (Or.inl rfl)
          refine ⟨by simp [ihlen], ?_, ?_⟩
          · refine ⟨fun _ => Or.inr ?_, fun _ => hch⟩
            intro heq
            have hhead := (List.cons.inj heq).1
            have himg : r = x.Image := congrArg Container.Image hhead
            exact hsame himg
          · refine ⟨fun _ => Or.inr ⟨x, List.mem_cons_self x rest, ?_⟩, fun _ => hch⟩
            rw [hx]
            intro heq
            exact hsame (Except.ok.inj heq)

theorem mutatePod_error (webhook : DockerProxyMutatingWebhook) (ns : String) (pod : Pod)
    (h : ∃ c ∈ pod.Spec.Containers ++ pod.Spec.InitContainers,
      ∃ e, RewriteImage c.Image ns webhook.config = .error e) :
    ∃ err, mutatePod webhook ns pod = .error err ∧
      ∃ c ∈ pod.Spec.Containers ++ pod.Spec.InitContainers,
        RewriteImage c.Image ns webhook.config = .error err := by
  obtain ⟨err, herr, hc⟩ := rewriteContainers_error ns webhook.config _ false h
  exact ⟨err, by simp only [mutatePod, herr], hc⟩

theorem mutatePod_spec (webhook : DockerProxyMutatingWebhook) (ns : String) (pod pod1 : Pod)
    (changed : Bool) (h : mutatePod webhook ns pod = .ok (pod1, changed)) :
    (changed = true ↔
      ∃ c ∈ pod.Spec.Containers ++ pod.Spec.InitContainers,
        RewriteImage c.Image ns webhook.config ≠ .ok c.Image) ∧
    (changed = true ↔
      (pod1.Spec.Containers ≠ pod.Spec.Containers ∨
        pod1.Spec.InitContainers ≠ pod.Spec.InitContainers)) ∧
    pod1.Spec.ImagePullSecrets =
      (if changed = true ∧ webhook.PullSecret ≠ "" then [{ Name := webhook.PullSecret }]
       else pod.Spec.ImagePullSecrets) := by
  unfold mutatePod at h
  cases hrec : rewriteContainers ns webhook.config
      (pod.Spec.Containers ++ pod.Spec.InitContainers) false with
  | error err =>
    rw [hrec] at h
    exact Except.noConfusion h
  | ok res =>
    obtain ⟨l1, ch⟩ := res
    rw [hrec] at h
    simp only [Except.ok.injEq, Prod.mk.injEq] at h
    obtain ⟨hpod, hch⟩ := h
    subst hch
    obtain ⟨hlen, hne, hex⟩ := rewriteContainers_spec ns webhook.config _ _ _ _ hrec
    have hsplit : l1 ≠ pod.Spec.Containers ++ pod.Spec.InitContainers ↔
        (l1.take pod.Spec.Containers.length ≠ pod.Spec.Containers ∨
          l1.drop pod.Spec.Containers.length ≠ pod.Spec.InitContainers) := by
      constructor
      · intro hdiff
        by_contra hcon
        push_neg at hcon
        apply hdiff
        rw [← List.take_append_drop pod.Spec.Containers.length l1, hcon.1, hcon.2]
      · rintro hor heq
        rw [heq] at hor
        simp at hor
    refine ⟨by simpa using hex, ?_, ?_⟩
    · rw [hne, ← hpod]
      simp only [Bool.false_eq_true, false_or]
      rw [hsplit]
      cases ch <;> by_cases hps : webhook.PullSecret = "" <;> simp [hps]
    · rw [← hpod]
      cases ch <;> by_cases hps : webhook.PullSecret = "" <;> simp [hps]

theorem mutatePod_ok (webhook : DockerProxyMutatingWebhook) (ns : String) (pod : Pod)
    (h : ∀ c ∈ pod.Spec.Containers ++ pod.Spec.InitContainers,
      ∃ r, RewriteImage c.Image ns webhook.config = .ok r) :
    ∃ pod1 changed, mutatePod webhook ns pod = .ok (pod1, changed) := by
  obtain ⟨l1, ch, hrec⟩ := rewriteContainers_ok ns webhook.config _ false h
  unfold mutatePod
  rw [hrec]
  exact ⟨_, _, rfl⟩

theorem mutatePod_unchanged (webhook : DockerProxyMutatingWebhook) (ns : String) (pod pod1 : Pod)
    (h : mutatePod webhook ns pod = .ok (pod1, false)) : pod1 = pod := by
  obtain ⟨_, hne, hsecrets⟩ := mutatePod_spec webhook ns pod pod1 false h
  have hcon : ¬ (pod1.Spec.Containers ≠ pod.Spec.Containers ∨
      pod1.Spec.InitContainers ≠ pod.Spec.InitContainers) :=
    fun hor => Bool.noConfusion (hne.mpr hor)
  push_neg at hcon
  simp only [Bool.false_eq_true, false_and, if_false] at hsecrets
  obtain ⟨⟨c1, i1, s1⟩⟩ := pod1
  obtain ⟨⟨c, i, s0⟩⟩ := pod
  simp only at hcon hsecrets
  rw [hcon.1, hcon.2, hsecrets]

theorem Handle_decoded (jsonMarshal : Pod → Except String String)
    (webhook : DockerProxyMutatingWebhook) (req : Request)
    (decode : Request → Except String Pod) (pod : Pod)
    (hres : req.Resource = "pods") (hdec : webhook.decoder = some decode)
    (hpod : decode req = .ok pod) :
    Handle jsonMarshal webhook req =
      match mutatePod webhook req.Namespace pod with
      | .error err => .Errored StatusInternalServerError err
      | .ok (pod1, changed) =>
        match jsonMarshal pod1 with
        | .error err => .Errored StatusInternalServerError err
        | .ok marshaledPod =>
          if changed then .PatchResponseFromRaw req.Raw marshaledPod
          else .Allowed "No \x60image\x60s rewritten" := by
  unfold Handle
  simp only [hres, hdec, hpod, bne_self_eq_false, Bool.false_eq_true, if_false]

/-! ## The claims on `Handle` and on the constructor -/

/-- Claim C6: when some regular or init container of the decoded pod has an image that
is not a short identifier and does not parse, `RewriteImage` fails on that image with the
parser's error and `Handle` answers with an errored response (status 500) that carries
the rewrite error of one of the pod's containers, whatever happened to the containers
before it: the response is neither allowed nor a patch and holds no part of the pod. -/
theorem C6_unparsable_image_rejects_request (jsonMarshal : Pod → Except String String)
    (webhook : DockerProxyMutatingWebhook) (req : Request)
    (decode : Request → Except String Pod) (pod : Pod) (container : Container) (e : String)
    (hres : req.Resource = "pods") (hdec : webhook.decoder = some decode)
    (hpod : decode req = .ok pod)
    (hmem : container ∈ pod.Spec.Containers ++ pod.Spec.InitContainers)
    (hnotshort : ¬ IsShortIdentifier container.Image)
    (hparse : reference.ParseNormalizedNamed container.Image = .error e) :
    RewriteImage container.Image req.Namespace webhook.config = .error e ∧
    ∃ err, Handle jsonMarshal webhook req = .Errored StatusInternalServerError err ∧
      ∃ c ∈ pod.Spec.Containers ++ pod.Spec.InitContainers,
        RewriteImage c.Image req.Namespace webhook.config = .error err := by
  have hfail : RewriteImage container.Image req.Namespace webhook.config = .error e := by
    have hshort := matchString_false_of_not_short container.Image hnotshort
    unfold RewriteImage
    simp only [hshort, hparse, Bool.false_eq_true, if_false]
  refine ⟨hfail, ?_⟩
  obtain ⟨err, herr, hc⟩ :=
    mutatePod_error webhook req.Namespace pod ⟨container, hmem, e, hfail⟩
  refine ⟨err, ?_, hc⟩
  rw [Handle_decoded jsonMarshal webhook req decode pod hres hdec hpod, herr]

/-- Witness of claim C6: the first container is rewritable, the second has the image
`Nginx`, and the request is rejected with the parser's message. -/
theorem C6_witness :
    RewriteImage "nginx:1.25" "default" mirrorConfig
      = .ok "mirror.example.com/library/nginx:1.25" ∧
    Handle renderPod (webhookFor mirrorConfig "regcred" brokenPod) podRequest
      = .Errored 500
          "invalid reference format: repository name (library/Nginx) must be lowercase" ∧
    (RewriteImage "Nginx" "default" mirrorConfig
      = .error "invalid reference format: repository name (library/Nginx) must be lowercase" ∧
     ∃ err, Handle renderPod (webhookFor mirrorConfig "regcred" brokenPod) podRequest
        = .Errored StatusInternalServerError err ∧
      ∃ c ∈ brokenPod.Spec.Containers ++ brokenPod.Spec.InitContainers,
        RewriteImage c.Image "default" mirrorConfig = .error err) :=
  ⟨by rfl, by rfl,
   C6_unparsable_image_rejects_request renderPod (webhookFor mirrorConfig "regcred" brokenPod)
    podRequest (fun _ => .ok brokenPod) brokenPod ⟨"bad", "Nginx"⟩
    "invalid reference format: repository name (library/Nginx) must be lowercase"
    rfl rfl rfl (by decide) (by decide) (by rfl)⟩

/-- Claim C8: for a decoded pod whose container images all rewrite without error (and
whose serialisation succeeds), `Handle` answers with a patch exactly when the result of
`RewriteImage` differs from the original image for some regular or init container; when
it differs for none, `Handle` answers with the plain allowed response and the pod is left
exactly as it was decoded. -/
theorem C8_patch_iff_some_image_differs (jsonMarshal : Pod → Except String String)
    (webhook : DockerProxyMutatingWebhook) (req : Request)
    (decode : Request → Except String Pod) (pod : Pod)
    (hres : req.Resource = "pods") (hdec : webhook.decoder = some decode)
    (hpod : decode req = .ok pod)
    (hall : ∀ c ∈ pod.Spec.Containers ++ pod.Spec.InitContainers,
      ∃ r, RewriteImage c.Image req.Namespace webhook.config = .ok r)
    (hmarshal : ∀ p, ∃ bytes, jsonMarshal p = .ok bytes) :
    ((∃ current, Handle jsonMarshal webhook req = .PatchResponseFromRaw req.Raw current) ↔
      ∃ c ∈ pod.Spec.Containers ++ pod.Spec.InitContainers,
        RewriteImage c.Image req.Namespace webhook.config ≠ .ok c.Image) ∧
    ((∀ c ∈ pod.Spec.Containers ++ pod.Spec.InitContainers,
        RewriteImage c.Image req.Namespace webhook.config = .ok c.Image) →
      Handle jsonMarshal webhook req = .Allowed "No \x60image\x60s rewritten" ∧
      mutatePod webhook req.Namespace pod = .ok (pod, false)) := by
  obtain ⟨pod1, changed, hmut⟩ := mutatePod_ok webhook req.Namespace pod hall
  obtain ⟨hex, _, _⟩ := mutatePod_spec webhook req.Namespace pod pod1 changed hmut
  obtain ⟨bytes, hbytes⟩ := hmarshal pod1
  have hrun := Handle_decoded jsonMarshal webhook req decode pod hres hdec hpod
  rw [hmut] at hrun
  simp only [hbytes] at hrun
  cases changed with
  | true =>
    have hsome := hex.mp rfl
    simp only [if_true] at hrun
    refine ⟨⟨fun _ => hsome, fun _ => ⟨bytes, hrun⟩⟩, ?_⟩
    intro hnone
    obtain ⟨c, hc, hne⟩ := hsome
    exact absurd (hnone c hc) hne
  | false =>
    have hnone : ¬ ∃ c ∈ pod.Spec.Containers ++ pod.Spec.InitContainers,
        RewriteImage c.Image req.Namespace webhook.config ≠ .ok c.Image :=
      fun h => Bool.noConfusion (hex.mpr h)
    simp only [Bool.false_eq_true, if_false] at hrun
    refine ⟨⟨?_, fun h => absurd h hnone⟩, ?_⟩
    · rintro ⟨current, hcur⟩
      rw [hrun] at hcur
      exact Response.noConfusion hcur
    · intro _
      have hsame := mutatePod_unchanged webhook req.Namespace pod pod1 hmut
      rw [hsame] at hmut
      exact ⟨hrun, hmut⟩

/-- Witness of claim C8: with one image to rewrite the answer is a patch, and with all
images mirrored already the answer is the plain allowed response. -/
theorem C8_witness :
    (∃ current, Handle renderPod (webhookFor mirrorConfig "regcred" mixedPod) podRequest
      = .PatchResponseFromRaw "raw" current) ∧
    Handle renderPod (webhookFor mirrorConfig "regcred" mirroredPod) podRequest
      = .Allowed "No \x60image\x60s rewritten" :=
  ⟨(C8_patch_iff_some_image_differs renderPod (webhookFor mirrorConfig "regcred" mixedPod)
    podRequest (fun _ => .ok mixedPod) mixedPod rfl rfl rfl
    (by
      intro c hc
      simp only [mixedPod, List.cons_append, List.nil_append, List.mem_cons,
        List.mem_singleton, List.not_mem_nil, or_false] at hc
      rcases hc with h | h | h <;> subst h <;> exact ⟨_, by rfl⟩)
    (fun p => ⟨_, rfl⟩)).1.mpr
    ⟨⟨"app", "nginx:1.25"⟩, by decide, by
      intro h
      have hrun : RewriteImage "nginx:1.25" "default" mirrorConfig
          = .ok "mirror.example.com/library/nginx:1.25" := by rfl
      rw [show RewriteImage (Container.mk "app" "nginx:1.25").Image podRequest.Namespace
        (webhookFor mirrorConfig "regcred" mixedPod).config
          = .ok "mirror.example.com/library/nginx:1.25" from hrun] at h
      exact absurd (Except.ok.inj h) (by decide)⟩,
   ((C8_patch_iff_some_image_differs renderPod (webhookFor mirrorConfig "regcred" mirroredPod)
    podRequest (fun _ => .ok mirroredPod) mirroredPod rfl rfl rfl
    (by
      intro c hc
      simp only [mirroredPod, List.cons_append, List.nil_append, List.mem_cons,
        List.mem_singleton, List.not_mem_nil, or_false] at hc
      rcases hc with h | h <;> subst h <;> exact ⟨_, by rfl⟩)
    (fun p => ⟨_, rfl⟩)).2
    (by
      intro c hc
      simp only [mirroredPod, List.cons_append, List.nil_append, List.mem_cons,
        List.mem_singleton, List.not_mem_nil, or_false] at hc
      rcases hc with h | h <;> subst h <;> rfl)).1⟩

/-- Claim C9: for a decoded pod that `Handle` processes without a rewrite error, with
`pod1` the pod after processing (the one `Handle` serialises) and `changed` the flag of
the loop: `changed` is set exactly when some regular or init container of `pod1` differs
from the decoded pod; when it is set and `PullSecret` is not empty, `ImagePullSecrets` of
`pod1` is the one-element list holding `PullSecret`, whatever the list was; when it is
set and `PullSecret` is empty, or when it is not set, `ImagePullSecrets` is the list the
decoded pod held. -/
theorem C9_pull_secret_replaces_only_on_change (jsonMarshal : Pod → Except String String)
    (webhook : DockerProxyMutatingWebhook) (req : Request)
    (decode : Request → Except String Pod) (pod pod1 : Pod) (changed : Bool)
    (hres : req.Resource = "pods") (hdec : webhook.decoder = some decode)
    (hpod : decode req = .ok pod)
    (hmut : mutatePod webhook req.Namespace pod = .ok (pod1, changed)) :
    (Handle jsonMarshal webhook req =
      match jsonMarshal pod1 with
      | .error err => .Errored StatusInternalServerError err
      | .ok marshaledPod =>
        if changed then .PatchResponseFromRaw req.Raw marshaledPod
        else .Allowed "No \x60image\x60s rewritten") ∧
    (changed = true ↔
      (pod1.Spec.Containers ≠ pod.Spec.Containers ∨
        pod1.Spec.InitContainers ≠ pod.Spec.InitContainers)) ∧
    (changed = true → webhook.PullSecret ≠ "" →
      pod1.Spec.ImagePullSecrets = [{ Name := webhook.PullSecret }]) ∧
    (changed = true → webhook.PullSecret = "" →
      pod1.Spec.ImagePullSecrets = pod.Spec.ImagePullSecrets) ∧
    (changed = false → pod1.Spec.ImagePullSecrets = pod.Spec.ImagePullSecrets) := by
  obtain ⟨_, hne, hsecrets⟩ := mutatePod_spec webhook req.Namespace pod pod1 changed hmut
  have hrun := Handle_decoded jsonMarshal webhook req decode pod hres hdec hpod
  rw [hmut] at hrun
  refine ⟨hrun, hne, ?_, ?_, ?_⟩
  · intro hc hps
    rw [hsecrets, if_pos ⟨hc, hps⟩]
  · intro _ hps
    rw [hsecrets, if_neg (fun h => h.2 hps)]
  · intro hc
    rw [hsecrets, if_neg (fun h => Bool.noConfusion (hc.symm.trans h.1))]

/-- Witness of claim C9: the specification's fifth example.  One image is rewritten, one
is mirrored already, and the earlier pull secret `old` gives way to `regcred`. -/
theorem C9_witness :
    mixedPod.Spec.ImagePullSecrets = [⟨"old"⟩] ∧
    mutatePod (webhookFor mirrorConfig "regcred" mixedPod) "default" mixedPod
      = .ok (mixedPodRewritten, true) ∧
    mixedPodRewritten.Spec.ImagePullSecrets = [⟨"regcred"⟩] :=
  ⟨rfl, by rfl,
   (C9_pull_secret_replaces_only_on_change renderPod (webhookFor mirrorConfig "regcred" mixedPod)
    podRequest (fun _ => .ok mixedPod) mixedPod mixedPodRewritten
    true rfl rfl rfl (by rfl)).2.2.1 rfl (by decide)⟩

/-- What `NewDockerProxyMutatingWebhook` does with a decoded document: it fails when the
map is `nil` and returns a webhook for every map that is not `nil`, whether or not an
ignore list is present. -/
theorem NewDockerProxyMutatingWebhook_decoded
    (yamlUnmarshal : String → Except String DockerConfig) (doc pullSecret : String)
    (config : DockerConfig) (hdecode : yamlUnmarshal doc = .ok config) :
    (config.DomainMap = none →
      NewDockerProxyMutatingWebhook yamlUnmarshal doc pullSecret
        = .error "no domain mapping entries set") ∧
    (∀ m, config.DomainMap = some m →
      NewDockerProxyMutatingWebhook yamlUnmarshal doc pullSecret
        = .ok { config := config, PullSecret := pullSecret, decoder := none }) := by
  unfold NewDockerProxyMutatingWebhook
  rw [hdecode]
  constructor
  · intro h
    simp only [h]
  · intro m h
    simp only [h]

/-- Claim C7, the behaviour of the code where the claim fails: a document that decodes
to a configuration whose `DomainMap` is present and has no entries (`domainMap: {}`) is
accepted, a webhook is returned and no error. -/
theorem C7_empty_domainMap_is_accepted
    (yamlUnmarshal : String → Except String DockerConfig) (doc pullSecret : String)
    (config : DockerConfig) (m : StringMap)
    (hdecode : yamlUnmarshal doc = .ok config)
    (hmap : config.DomainMap = some m) (hempty : m.entries = []) :
    m.entries.length = 0 ∧
    NewDockerProxyMutatingWebhook yamlUnmarshal doc pullSecret
      = .ok { config := config, PullSecret := pullSecret, decoder := none } :=
  ⟨by rw [hempty]; rfl,
   (NewDockerProxyMutatingWebhook_decoded yamlUnmarshal doc pullSecret config hdecode).2 m hmap⟩

/-- Witness of claim C7: the document `domainMap: {}`, decoded to the empty map. -/
theorem C7_witness :
    ∃ webhook, NewDockerProxyMutatingWebhook (fun _ => .ok emptyMapConfig) "domainMap: \x7b\x7d"
        "regcred" = .ok webhook ∧ webhook.config.domainMapValues = [] :=
  ⟨_, (C7_empty_domainMap_is_accepted (fun _ => .ok emptyMapConfig) "domainMap: \x7b\x7d"
    "regcred" emptyMapConfig ⟨[], by decide⟩ rfl rfl rfl).2, rfl⟩

end DockerProxy
